import Mathlib

/-!
Verification of the `pulp_file` synchronization engine
(`src/pulp_file/app/tasks/synchronizing.py`) against its natural-language
specification.

The Python module is shallowly embedded below:
* `Key`, `Entry`, `Delta` mirror the `Key`/`Delta` namedtuples and the
  manifest entries (`path`, `digest`, `size`);
* `find_delta` mirrors `find_delta` (lines 114-138);
* `build_additions` mirrors `build_additions` (lines 141-170), with
  `urlparse`, `urlunparse`, `dirname` and `pathJoin` modelling the Python
  standard-library functions it calls;
* `build_removals` mirrors `build_removals` (lines 173-193), with `batches`
  modelling pulpcore's `BatchIterator`;
* `synchronize` mirrors the orchestration in `synchronize` (lines 34-81):
  the external collaborators (Django ORM lookups, the downloader, the
  pulpcore `ChangeSet` apply engine) are abstracted as an environment
  recording their outcomes, and the effect trace records what the
  orchestrator did in which order.
-/

/-- The natural key, `Key = namedtuple('Key', ('path', 'digest'))` (line 28). -/
structure Key where
  path : String
  digest : String
deriving DecidableEq, Repr

/-- One record of the manifest: `entry.path`, `entry.digest`, `entry.size`
as consumed by `find_delta` and `build_additions`.  The `Manifest` parser
itself lives in `pulp_file.manifest` (outside `src/`); a parsed manifest is
represented by its entry sequence, which `manifest.read()` yields (§4.1 of
the spec: re-iteration yields the identical sequence). -/
structure Entry where
  path : String
  digest : String
  size : Nat
deriving DecidableEq, Repr

/-- `Key(path=e.path, digest=e.digest)` as built in `find_delta` and
`build_additions`. -/
def keyOf (e : Entry) : Key :=
  { path := e.path, digest := e.digest }

/-- `Delta = namedtuple('Delta', ('additions', 'removals'))` (line 31);
both fields are Python `set`s of `Key`, embedded as `Finset Key`. -/
structure Delta where
  additions : Finset Key
  removals : Finset Key
deriving DecidableEq

/-- The set of keys of the manifest entries,
`set([Key(path=e.path, digest=e.digest) for e in manifest.read()])`. -/
def remoteKeys (manifest : List Entry) : Finset Key :=
  (manifest.map keyOf).toFinset

/-- `find_delta(manifest, content, mirror=True)` (lines 114-138). -/
def find_delta (manifest : List Entry) (content : Finset Key)
    (mirror : Bool := true) : Delta :=
  let remote_content := (manifest.map keyOf).toFinset
  let additions := remote_content \ content
  let removals := if mirror then content \ remote_content else (∅ : Finset Key)
  { additions := additions, removals := removals }

theorem find_delta_additions (manifest : List Entry) (content : Finset Key)
    (mirror : Bool) :
    (find_delta manifest content mirror).additions = remoteKeys manifest \ content :=
  rfl

theorem find_delta_removals (manifest : List Entry) (content : Finset Key)
    (mirror : Bool) :
    (find_delta manifest content mirror).removals =
      if mirror then content \ remoteKeys manifest else ∅ :=
  rfl

/-- C1: `find_delta` returns `additions = R − L`; `removals = L − R` when
`mirror` is true and `∅` otherwise; and the two sets are disjoint, for every
manifest (whose key set is `R`), every local key set `L`, and every `mirror`
flag. -/
theorem C1_find_delta_correct (manifest : List Entry) (content : Finset Key)
    (mirror : Bool) :
    (find_delta manifest content mirror).additions = remoteKeys manifest \ content ∧
    (find_delta manifest content mirror).removals =
      (if mirror then content \ remoteKeys manifest else ∅) ∧
    Disjoint (find_delta manifest content mirror).additions
      (find_delta manifest content mirror).removals := by
  refine ⟨rfl, rfl, ?_⟩
  rw [Finset.disjoint_left]
  intro k hk hk'
  rw [find_delta_additions, Finset.mem_sdiff] at hk
  rw [find_delta_removals] at hk'
  rcases mirror with _ | _
  · simp at hk'
  · rw [if_pos rfl, Finset.mem_sdiff] at hk'
    exact hk.2 hk'.1

/-- Result of `urllib.parse.urlparse`: the six URL components. -/
structure ParsedUrl where
  scheme : String
  netloc : String
  path : String
  params : String
  query : String
  fragment : String
deriving DecidableEq, Repr

/-- `hasPre pre cs` is true when `pre` is an initial segment of `cs`. -/
def hasPre : List Char → List Char → Bool
  | [], _ => true
  | _ :: _, [] => false
  | c :: pre, d :: cs => c = d && hasPre pre cs

/-- Model of `urllib.parse.urlparse` (line 168), restricted to absolute URLs
of the shape `scheme://netloc[/path][?query][#fragment]` (no `;params`
handling, which `feed_url`s do not use): the scheme is everything before the
first `:`, the network location runs to the first `/`, `?` or `#`, the path
to the first `?` or `#`, the query to the first `#`. -/
def urlparse (url : String) : ParsedUrl :=
  let cs := url.data
  let scheme := cs.takeWhile (fun c => c ≠ ':')
  match cs.drop scheme.length with
  | ':' :: '/' :: '/' :: tail =>
      let netloc := tail.takeWhile (fun c => c ≠ '/' && c ≠ '?' && c ≠ '#')
      let after := tail.drop netloc.length
      let path := after.takeWhile (fun c => c ≠ '?' && c ≠ '#')
      let qf := after.drop path.length
      let query :=
        match qf with
        | '?' :: q => q.takeWhile (fun c => c ≠ '#')
        | _ => []
      let fragment :=
        match qf.dropWhile (fun c => c ≠ '#') with
        | '#' :: f => f
        | _ => []
      ⟨⟨scheme⟩, ⟨netloc⟩, ⟨path⟩, "", ⟨query⟩, ⟨fragment⟩⟩
  | _ => ⟨"", "", url, "", "", ""⟩

/-- Model of `urllib.parse.urlunparse` (line 159): re-assembles the six
components; `;params` is appended to the path, `//netloc` is prepended when
a network location is present, then `scheme:`, `?query`, `#fragment`. -/
def urlunparse (u : ParsedUrl) : String :=
  let url := u.path.data ++ (if u.params.data = [] then [] else ';' :: u.params.data)
  let url :=
    if u.netloc.data ≠ [] ∨ hasPre ['/', '/'] url = true then
      '/' :: '/' :: (u.netloc.data ++
        (match url with
         | [] => []
         | c :: cs => if c = '/' then c :: cs else '/' :: c :: cs))
    else url
  let url := if u.scheme.data = [] then url else u.scheme.data ++ ':' :: url
  let url := if u.query.data = [] then url else url ++ '?' :: u.query.data
  let url := if u.fragment.data = [] then url else url ++ '#' :: u.fragment.data
  ⟨url⟩

/-- Model of `posixpath.dirname` (`os.path.dirname`, line 169): everything up
to the last `/`, with trailing slashes stripped unless the head is empty or
all slashes. -/
def dirname (p : String) : String :=
  let cs := p.data
  let i := cs.length - (cs.reverse.takeWhile (fun c => c ≠ '/')).length
  let head := cs.take i
  if head ≠ [] ∧ ¬ (head.all (fun c => c = '/')) then
    ⟨(head.reverse.dropWhile (fun c => c = '/')).reverse⟩
  else ⟨head⟩

/-- Model of `posixpath.join` on two components (`os.path.join`, line 158):
an absolute second component replaces the first; otherwise the components
are concatenated with a `/` inserted unless the first is empty or already
ends in `/`. -/
def pathJoin (a b : String) : String :=
  match b.data with
  | '/' :: _ => b
  | _ =>
    match a.data.reverse with
    | [] => b
    | c :: _ => if c = '/' then a ++ b else a ++ "/" ++ b

/-- `SizedIterable(generator, length)` (pulpcore): the sequence of items the
generator yields, together with the length reported up front. -/
structure SizedIterable (α : Type) where
  items : List α
  length : Nat
deriving DecidableEq, Repr

/-- The `PendingContent` built for one manifest entry in `build_additions`
(lines 158-166): the content's natural data (`path`, `digest`), the expected
artifact data (`size`, `sha256 = digest`) and the fetch `url`. -/
structure AdditionItem where
  path : String
  digest : String
  size : Nat
  url : String
deriving DecidableEq, Repr

/-- The item that `build_additions.generate` yields for one manifest entry:
`path = os.path.join(root_dir, entry.path)`;
`url = urlunparse(parsed_url._replace(path=path))` (lines 158-166). -/
def mkAdditionItem (parsed_url : ParsedUrl) (root_dir : String) (entry : Entry) :
    AdditionItem :=
  { path := entry.path, digest := entry.digest, size := entry.size,
    url := urlunparse { parsed_url with path := pathJoin root_dir entry.path } }

/-- `build_additions(importer, manifest, delta)` (lines 141-170), with
`feed_url = importer.feed_url`.  `generate()` walks `manifest.read()` and
yields one `PendingContent` per entry whose key lies in `delta.additions`;
the result is `SizedIterable(generate(), len(delta.additions))`. -/
def build_additions (feed_url : String) (manifest : List Entry) (delta : Delta) :
    SizedIterable AdditionItem :=
  let parsed_url := urlparse feed_url
  let root_dir := dirname parsed_url.path
  { items := manifest.filterMap (fun entry =>
      if keyOf entry ∈ delta.additions then
        some (mkAdditionItem parsed_url root_dir entry)
      else none),
    length := delta.additions.card }

/-- One row of the base version's content as touched by `build_removals`:
its id (`pk`) and the `filecontent__path` / `filecontent__digest` fields the
disjunctive `Q` filter matches on (lines 186-190). -/
structure ContentRecord where
  pk : Nat
  path : String
  digest : String
deriving DecidableEq, Repr

/-- The key a content record matches under,
`Q(filecontent__path=key.path, filecontent__digest=key.digest)`. -/
def recordKey (r : ContentRecord) : Key :=
  { path := r.path, digest := r.digest }

/-- One disjunct `Q(filecontent__path=key.path, filecontent__digest=key.digest)`
(line 188) applied to a record. -/
def keyMatch (key : Key) (r : ContentRecord) : Bool :=
  r.path = key.path && r.digest = key.digest

/-- The whole disjunction `q` built by `|=`-ing one `Q` per key of a batch
(lines 186-188): a record matches when some key of the batch matches it. -/
def batchMatch (batch : List Key) (r : ContentRecord) : Bool :=
  batch.any (fun key => keyMatch key r)

/-- Recursion core of `batches`, with the fuel bounding the number of chunks
(`ks.length` always suffices for a positive chunk size). -/
def batchesAux (n : Nat) : Nat → List Key → List (List Key)
  | _, [] => []
  | 0, _ :: _ => []
  | fuel + 1, k :: ks => (k :: ks).take n :: batchesAux n fuel ((k :: ks).drop n)

/-- Model of pulpcore's `BatchIterator` (line 185): the input sequence cut
into consecutive chunks of `n` items (the last chunk possibly shorter). -/
def batches (n : Nat) (ks : List Key) : List (List Key) :=
  batchesAux n ks.length ks

/-- `build_removals(base_version, delta)` (lines 173-193).  `removalKeys` is
the order in which `BatchIterator` enumerates the Python set
`delta.removals` (hence duplicate-free), and `base` is the row sequence of
`base_version.content`; per batch, `base_version.content.filter(q)` yields
the records matched by the batch's disjunction.  The result is
`SizedIterable(generate(), len(delta.removals))`. -/
def build_removals (batch_size : Nat) (base : List ContentRecord)
    (removalKeys : List Key) : SizedIterable ContentRecord :=
  { items := (batches batch_size removalKeys).flatMap
      (fun b => base.filter (batchMatch b)),
    length := removalKeys.length }

/-- The unbatched lookup of C8: one single disjunctive query over all
removal keys at once, restricted to the base version's content. -/
def unbatchedLookup (base : List ContentRecord) (removalKeys : List Key) :
    List ContentRecord :=
  base.filter (batchMatch removalKeys)

/-- `fetch_content(base_version)` (lines 96-111): the set of natural keys of
the base version's content rows; an absent base version is represented by an
empty row list and likewise yields the empty set. -/
def fetch_content (baseRecords : List ContentRecord) : Finset Key :=
  (baseRecords.map recordKey).toFinset

/-- One per-item report yielded by `changeset.apply()` (line 72).  Per the
spec's apply-engine contract (§6), a report can indicate that its addition
or removal failed. -/
structure Report where
  succeeded : Bool
deriving DecidableEq, Repr

/-- The error a sync run terminates with. -/
inductive SyncError where
  /-- The `ValueError` of line 52 (`feed_url` missing or empty). -/
  | missingFeedUrl : SyncError
  /-- The downloader raised while fetching the manifest (line 92). -/
  | transport : SyncError
  /-- `changeset.apply()` raised during iteration (line 72). -/
  | applyError : SyncError
deriving DecidableEq, Repr

/-- The observable steps `synchronize` performs, in order. -/
inductive Effect where
  /-- The ORM lookups of importer, repository and latest version
  (lines 47-49) that load the sync's configuration. -/
  | loadConfig : Effect
  /-- `RepositoryVersion.create(repository)` opens the provisional version
  (line 55). -/
  | createVersion : Effect
  /-- `fetch_manifest(importer)` performs the manifest download (line 62). -/
  | fetchManifest : Effect
  /-- `fetch_content(base_version)` reads the base version's rows (line 63). -/
  | readBaseContent : Effect
  /-- `changeset.apply()` runs the external apply engine (line 72). -/
  | applyChanges : Effect
  /-- Normal exit of the `RepositoryVersion.create` context seals the
  provisional version. -/
  | sealVersion : Effect
  /-- Exceptional exit of the `RepositoryVersion.create` context discards
  the provisional version. -/
  | discardVersion : Effect
deriving DecidableEq, Repr

/-- The outcomes of the external collaborators for one sync run, together
with the importer's configuration. -/
structure SyncEnv where
  /-- `importer.feed_url`; `none` models a `NULL` field. -/
  feed_url : Option String
  /-- The content rows of the base repository version (empty when the
  repository has no version yet). -/
  baseRecords : List ContentRecord
  /-- Outcome of the manifest download and parse: the entry sequence, or a
  transport error raised by `downloader.fetch()`. -/
  manifestFetch : Except Unit (List Entry)
  /-- Outcome of `changeset.apply()`: the per-item reports it yielded, or an
  exception raised during iteration. -/
  applyOutcome : Except Unit (List Report)

/-- What one run of `synchronize` produced. -/
structure SyncResult where
  /-- `some keys`: a version with that content key set was sealed;
  `none`: no version was sealed. -/
  committed : Option (Finset Key)
  /-- The error the run raised, if any. -/
  error : Option SyncError
  /-- The effect trace, in execution order. -/
  effects : List Effect
deriving DecidableEq

/-- Python truthiness of `importer.feed_url` as tested by
`if not importer.feed_url` (line 51): falsy when absent or empty. -/
def feedUrlFalsy : Option String → Bool
  | none => true
  | some s => s = ""

/-- Modelled from the spec: the external apply engine (pulpcore's
`ChangeSet`, constructed on lines 67-71) is not part of this repository; per
§3 and §6 of the spec it populates the provisional version so that its
content key set is `(base_version_keys − removals) ∪ additions`. -/
def applyChangeSet (base : Finset Key) (delta : Delta) : Finset Key :=
  (base \ delta.removals) ∪ delta.additions

/-- `synchronize(importer_pk, repository_pk)` (lines 34-81), as a function of
the collaborator outcomes.  Mirrors the source's order: configuration
lookups, the `feed_url` check, provisional-version creation, manifest fetch,
base-content read, `find_delta` (with its default `mirror=True`), apply, and
sealing on normal exit of the version context.  The loop over
`changeset.apply()` (lines 72-81) only writes debug log lines: the reports'
contents are not inspected. -/
def synchronize (env : SyncEnv) : SyncResult :=
  if feedUrlFalsy env.feed_url then
    { committed := none, error := some SyncError.missingFeedUrl,
      effects := [Effect.loadConfig] }
  else
    match env.manifestFetch with
    | Except.error _ =>
        { committed := none, error := some SyncError.transport,
          effects := [Effect.loadConfig, Effect.createVersion,
            Effect.fetchManifest, Effect.discardVersion] }
    | Except.ok manifest =>
        let content := fetch_content env.baseRecords
        let delta := find_delta manifest content
        match env.applyOutcome with
        | Except.error _ =>
            { committed := none, error := some SyncError.applyError,
              effects := [Effect.loadConfig, Effect.createVersion,
                Effect.fetchManifest, Effect.readBaseContent,
                Effect.applyChanges, Effect.discardVersion] }
        | Except.ok _reports =>
            { committed := some (applyChangeSet content delta),
              error := none,
              effects := [Effect.loadConfig, Effect.createVersion,
                Effect.fetchManifest, Effect.readBaseContent,
                Effect.applyChanges, Effect.sealVersion] }

/-- The parameters of the task entry point,
`def synchronize(importer_pk, repository_pk)` (line 35). -/
def synchronizeParams : List String :=
  ["importer_pk", "repository_pk"]

/-- The default value of `find_delta`'s `mirror` parameter (line 114). -/
def find_delta_mirror_default : Bool :=
  true

theorem applyChangeSet_mirror (manifest : List Entry) (content : Finset Key) :
    applyChangeSet content (find_delta manifest content) = remoteKeys manifest := by
  ext k
  rw [applyChangeSet, find_delta_additions, find_delta_removals, if_pos rfl]
  simp only [Finset.mem_union, Finset.mem_sdiff]
  tauto

/-- C2: on a successful sync (valid `feed_url`, manifest fetched, apply
succeeded), the sealed version's content key set equals
`(base_version_keys − removals) ∪ additions`, and — `synchronize` always
calling `find_delta` in its default mirror mode — it equals exactly the
remote manifest's key set. -/
theorem C2_committed_content (env : SyncEnv) (manifest : List Entry)
    (reports : List Report)
    (hfeed : feedUrlFalsy env.feed_url = false)
    (hman : env.manifestFetch = Except.ok manifest)
    (happ : env.applyOutcome = Except.ok reports) :
    (synchronize env).committed =
      some ((fetch_content env.baseRecords \
              (find_delta manifest (fetch_content env.baseRecords)).removals) ∪
            (find_delta manifest (fetch_content env.baseRecords)).additions) ∧
    (synchronize env).committed = some (remoteKeys manifest) := by
  have h1 : (synchronize env).committed =
      some (applyChangeSet (fetch_content env.baseRecords)
        (find_delta manifest (fetch_content env.baseRecords))) := by
    simp [synchronize, hfeed, hman, happ]
  exact ⟨h1, h1.trans (by rw [applyChangeSet_mirror])⟩

/-- The example scenario of the spec: base `{(a,1),(b,2)}`, remote
`{(b,2),(c,3)}`, mirror mode. -/
def envC2 : SyncEnv :=
  { feed_url := some "http://host/repo/PULP_MANIFEST",
    baseRecords := [⟨1, "a", "1"⟩, ⟨2, "b", "2"⟩],
    manifestFetch := Except.ok [⟨"b", "2", 10⟩, ⟨"c", "3", 20⟩],
    applyOutcome := Except.ok [] }

/-- C2 witness: the spec's example scenario commits exactly
`{(b,2),(c,3)}`. -/
theorem C2_witness :
    (synchronize envC2).committed = some ({⟨"b", "2"⟩, ⟨"c", "3"⟩} : Finset Key) := by
  have h := C2_committed_content envC2 [⟨"b", "2", 10⟩, ⟨"c", "3", 20⟩] []
    (by decide) rfl rfl
  exact h.2.trans (by decide)

/-- C5: when the manifest download raises a transport error, the sync aborts
with that error: no version is sealed (the provisional one opened on line 55
is discarded by the version context), and the repository keeps its old
latest version. -/
theorem C5_transport_abort (env : SyncEnv)
    (hfeed : feedUrlFalsy env.feed_url = false)
    (hman : env.manifestFetch = Except.error ()) :
    (synchronize env).committed = none ∧
    (synchronize env).error = some SyncError.transport ∧
    Effect.sealVersion ∉ (synchronize env).effects ∧
    Effect.discardVersion ∈ (synchronize env).effects := by
  simp [synchronize, hfeed, hman]

/-- C5 witness: a concrete failing download. -/
theorem C5_witness :
    (synchronize { feed_url := some "http://host/repo/PULP_MANIFEST",
                   baseRecords := [],
                   manifestFetch := Except.error (),
                   applyOutcome := Except.ok [] }).committed = none :=
  (C5_transport_abort _ (by decide) rfl).1

/-- C9: an absent or empty `feed_url` raises the fatal configuration error
(`ValueError`, line 52) right after the configuration lookups: the effect
trace holds nothing but the configuration load, so no version was created
(not even provisionally) and no download, storage read, apply or seal
happened. -/
theorem C9_missing_feed (env : SyncEnv)
    (hfeed : feedUrlFalsy env.feed_url = true) :
    (synchronize env).error = some SyncError.missingFeedUrl ∧
    (synchronize env).committed = none ∧
    (synchronize env).effects = [Effect.loadConfig] := by
  simp [synchronize, hfeed]

/-- C9 witness: an importer whose `feed_url` is absent. -/
theorem C9_witness :
    (synchronize { feed_url := none, baseRecords := [],
                   manifestFetch := Except.ok [],
                   applyOutcome := Except.ok [] }).effects = [Effect.loadConfig] :=
  (C9_missing_feed { feed_url := none, baseRecords := [],
                     manifestFetch := Except.ok [],
                     applyOutcome := Except.ok [] } rfl).2.2

/-- The environment refuting C3: the apply engine yields a report that
indicates a failed item, without raising. -/
def envC3 : SyncEnv :=
  { feed_url := some "http://host/repo/PULP_MANIFEST",
    baseRecords := [],
    manifestFetch := Except.ok [⟨"a", "1", 5⟩],
    applyOutcome := Except.ok [{ succeeded := false }] }

/-- C3 counterexample: the apply phase yields a per-item report indicating a
failure, yet `synchronize` seals the version anyway — the loop on lines
72-81 only writes debug log lines and never inspects the reports. -/
theorem C3_counterexample :
    envC3.applyOutcome = Except.ok [{ succeeded := false }] ∧
    (synchronize envC3).committed = some ({⟨"a", "1"⟩} : Finset Key) ∧
    (synchronize envC3).error = none ∧
    Effect.sealVersion ∈ (synchronize envC3).effects :=
  ⟨rfl, by decide, by decide, by decide⟩

/-- C3 amended: the orchestrator never inspects the per-item reports; the
sync aborts with the provisional version unsealed exactly when the apply
phase raises an exception, and whenever `changeset.apply()` returns its
reports — even reports indicating failed items — the version is sealed. -/
theorem C3_apply_failure (env : SyncEnv) (manifest : List Entry)
    (hfeed : feedUrlFalsy env.feed_url = false)
    (hman : env.manifestFetch = Except.ok manifest) :
    (∀ e : Unit, env.applyOutcome = Except.error e →
      (synchronize env).committed = none ∧
      Effect.sealVersion ∉ (synchronize env).effects ∧
      (synchronize env).error = some SyncError.applyError) ∧
    (∀ reports : List Report, env.applyOutcome = Except.ok reports →
      (synchronize env).committed.isSome = true ∧
      Effect.sealVersion ∈ (synchronize env).effects ∧
      (synchronize env).error = none) := by
  constructor
  · intro e happ
    simp [synchronize, hfeed, hman, happ]
  · intro reports happ
    simp [synchronize, hfeed, hman, happ]

/-- C3 witness: a run whose apply phase raises is aborted unsealed. -/
theorem C3_witness :
    (synchronize { feed_url := some "http://host/repo/PULP_MANIFEST",
                   baseRecords := [],
                   manifestFetch := Except.ok [⟨"a", "1", 5⟩],
                   applyOutcome := Except.error () }).committed = none :=
  ((C3_apply_failure { feed_url := some "http://host/repo/PULP_MANIFEST",
                       baseRecords := [],
                       manifestFetch := Except.ok [⟨"a", "1", 5⟩],
                       applyOutcome := Except.error () }
      [⟨"a", "1", 5⟩] (by decide) rfl).1 () rfl).1

/-- C4 counterexample: a manifest entry whose relative path climbs out of
the base directory with `..` is not rejected — `build_additions` happily
yields an addition item for it, with the raw string join in the fetch URL.
No path-traversal check (and no `PathTraversalError`) exists in the code. -/
theorem C4_counterexample :
    (build_additions "http://host/repo/PULP_MANIFEST" [⟨"../evil.iso", "d", 1⟩]
        (find_delta [⟨"../evil.iso", "d", 1⟩] ∅)).items =
      [{ path := "../evil.iso", digest := "d", size := 1,
         url := "http://host/repo/../evil.iso" }] := by
  decide

/-- C4 amended: the Addition Planner performs no traversal check: every
manifest entry whose key is in `delta.additions` — including entries whose
path contains `..` — gets an addition item with a fetch URL built by the raw
join of the base directory and the entry path. -/
theorem C4_no_traversal_check (feed_url : String) (manifest : List Entry)
    (delta : Delta) (e : Entry)
    (_htrav : ∃ re post, e.path = re ++ ".." ++ post)
    (hmem : e ∈ manifest) (hadd : keyOf e ∈ delta.additions) :
    mkAdditionItem (urlparse feed_url) (dirname (urlparse feed_url).path) e ∈
      (build_additions feed_url manifest delta).items := by
  show mkAdditionItem _ _ e ∈ manifest.filterMap _
  rw [List.mem_filterMap]
  exact ⟨e, hmem, by rw [if_pos hadd]⟩

/-- C4 witness: the `../evil.iso` entry of the counterexample is planned. -/
theorem C4_witness :
    mkAdditionItem (urlparse "http://host/repo/PULP_MANIFEST")
        (dirname (urlparse "http://host/repo/PULP_MANIFEST").path)
        ⟨"../evil.iso", "d", 1⟩ ∈
      (build_additions "http://host/repo/PULP_MANIFEST" [⟨"../evil.iso", "d", 1⟩]
        (find_delta [⟨"../evil.iso", "d", 1⟩] ∅)).items :=
  C4_no_traversal_check "http://host/repo/PULP_MANIFEST" _ _ ⟨"../evil.iso", "d", 1⟩
    ⟨"", "/evil.iso", by decide⟩ (List.mem_singleton.mpr rfl) (by decide)

/-- C6 counterexample: the task entry point
`synchronize(importer_pk, repository_pk)` exposes neither a `mirror` nor a
`batch_size` option. -/
theorem C6_counterexample :
    ¬ ("mirror" ∈ synchronizeParams ∨ "batch_size" ∈ synchronizeParams) := by
  decide

/-- C6 amended: the entry point takes exactly a source (importer) reference
and a target repository reference; `mirror` (default true) is a parameter of
the internal delta calculator `find_delta`, always left at its default by
`synchronize`, and the batch size belongs to the external `BatchIterator` —
neither is exposed on the entry point. -/
theorem C6_entry_point :
    synchronizeParams = ["importer_pk", "repository_pk"] ∧
    find_delta_mirror_default = true ∧
    (∀ (manifest : List Entry) (content : Finset Key),
      find_delta manifest content =
        find_delta manifest content find_delta_mirror_default) :=
  ⟨rfl, rfl, fun _ _ => rfl⟩

/-- C10: the fetch URL re-combines the original URL's components with the
path replaced by the join of the manifest URL's base directory and the
entry's relative path (scheme, network location and query are kept); on the
spec's example, entry `sub/dir/file.iso` against source URL
`http://host/repo/PULP_MANIFEST` gives `http://host/repo/sub/dir/file.iso`. -/
theorem C10_url_construction :
    ((build_additions "http://host/repo/PULP_MANIFEST"
        [⟨"sub/dir/file.iso", "d", 10⟩]
        (find_delta [⟨"sub/dir/file.iso", "d", 10⟩] ∅)).items.map
          (fun i => i.url)) = ["http://host/repo/sub/dir/file.iso"] ∧
    (∀ (u : ParsedUrl) (root_dir : String) (e : Entry),
      (mkAdditionItem u root_dir e).url =
        urlunparse { scheme := u.scheme, netloc := u.netloc,
                     path := pathJoin root_dir e.path, params := u.params,
                     query := u.query, fragment := u.fragment }) :=
  ⟨by decide, fun _ _ _ => rfl⟩

/-- C7 counterexample: a manifest carrying the same `(path, digest)` record
twice makes `build_additions.generate` yield two items for the single key in
`delta.additions`, while the `SizedIterable` still reports length 1 —
duplicate records are not deduplicated by the planner (only the delta is a
set). -/
theorem C7_counterexample :
    ((build_additions "http://host/repo/PULP_MANIFEST"
        [⟨"a", "1", 5⟩, ⟨"a", "1", 5⟩]
        (find_delta [⟨"a", "1", 5⟩, ⟨"a", "1", 5⟩] ∅)).items.length = 2 ∧
     (find_delta [⟨"a", "1", 5⟩, ⟨"a", "1", 5⟩] ∅).additions.card = 1 ∧
     (build_additions "http://host/repo/PULP_MANIFEST"
        [⟨"a", "1", 5⟩, ⟨"a", "1", 5⟩]
        (find_delta [⟨"a", "1", 5⟩, ⟨"a", "1", 5⟩] ∅)).length = 1) := by
  decide

/-- C7 amended: when the manifest's records have pairwise distinct
`(path, digest)` keys, `build_additions` yields exactly one addition item
per key of `delta.additions` (a duplicated record instead yields one item
per occurrence), and the sized iterable reports the count
`len(delta.additions)` up front. -/
theorem C7_unique_items (feed_url : String) (manifest : List Entry)
    (content : Finset Key) (mirror : Bool)
    (hnd : (manifest.map keyOf).Nodup) :
    (build_additions feed_url manifest (find_delta manifest content mirror)).length =
      (find_delta manifest content mirror).additions.card ∧
    ∀ k ∈ (find_delta manifest content mirror).additions,
      ((build_additions feed_url manifest
          (find_delta manifest content mirror)).items.countP
        (fun i => decide (Key.mk i.path i.digest = k))) = 1 := by
  refine ⟨rfl, ?_⟩
  intro k hk
  have hkr : k ∈ manifest.map keyOf := by
    have h1 : k ∈ remoteKeys manifest \ content := by
      rw [← find_delta_additions manifest content mirror]
      exact hk
    exact List.mem_toFinset.mp (Finset.mem_sdiff.mp h1).1
  show (manifest.filterMap _).countP _ = 1
  rw [List.countP_filterMap]
  have hcong : List.countP
      (fun a => (Option.map (fun i => decide (Key.mk i.path i.digest = k))
        (if keyOf a ∈ (find_delta manifest content mirror).additions then
          some (mkAdditionItem (urlparse feed_url)
            (dirname (urlparse feed_url).path) a)
         else none)).getD false) manifest =
      manifest.countP (fun e => decide (keyOf e = k)) := by
    refine List.countP_congr ?_
    intro e _
    by_cases he : keyOf e ∈ (find_delta manifest content mirror).additions
    · rw [if_pos he]
      constructor
      · intro h
        simpa [mkAdditionItem, keyOf] using h
      · intro h
        simpa [mkAdditionItem, keyOf] using h
    · rw [if_neg he]
      constructor
      · intro h
        simp at h
      · intro h
        rw [decide_eq_true_eq] at h
        exact absurd (h ▸ he) (fun hc => hc hk)
  rw [hcong]
  have hmapcount : manifest.countP (fun e => decide (keyOf e = k)) =
      (manifest.map keyOf).count k := by
    rw [List.count_eq_countP, List.countP_map]
    rfl
  rw [hmapcount]
  exact List.count_eq_one_of_mem hnd hkr

/-- C7 witness: a duplicate-free one-entry manifest yields exactly one item
for its key. -/
theorem C7_witness :
    ((build_additions "http://host/repo/PULP_MANIFEST" [⟨"a", "1", 5⟩]
        (find_delta [⟨"a", "1", 5⟩] ∅)).items.countP
      (fun i => decide (Key.mk i.path i.digest = ⟨"a", "1"⟩))) = 1 :=
  (C7_unique_items "http://host/repo/PULP_MANIFEST" [⟨"a", "1", 5⟩] ∅ true
    (by decide)).2 ⟨"a", "1"⟩ (by decide)

theorem batchesAux_flatten (n : Nat) (hn : 0 < n) :
    ∀ (fuel : Nat) (ks : List Key), ks.length ≤ fuel →
      (batchesAux n fuel ks).flatten = ks := by
  intro fuel
  induction fuel with
  | zero =>
      intro ks hks
      cases ks with
      | nil => rfl
      | cons k ks => simp at hks
  | succ fuel ih =>
      intro ks hks
      cases ks with
      | nil => rfl
      | cons k ks =>
          show ((k :: ks).take n :: batchesAux n fuel ((k :: ks).drop n)).flatten
            = k :: ks
          rw [List.flatten_cons, ih ((k :: ks).drop n) ?_, List.take_append_drop]
          rw [List.length_drop]
          simp only [List.length_cons] at hks ⊢
          omega

theorem batches_flatten (n : Nat) (hn : 0 < n) (ks : List Key) :
    (batches n ks).flatten = ks :=
  batchesAux_flatten n hn ks.length ks le_rfl

theorem batchMatch_true_iff (batch : List Key) (r : ContentRecord) :
    batchMatch batch r = true ↔ recordKey r ∈ batch := by
  simp only [batchMatch, keyMatch, List.any_eq_true, Bool.and_eq_true,
    decide_eq_true_eq]
  constructor
  · rintro ⟨k, hk, h1, h2⟩
    have : recordKey r = k := by
      cases k
      simp only [recordKey, Key.mk.injEq]
      exact ⟨h1, h2⟩
    rw [this]
    exact hk
  · intro h
    exact ⟨recordKey r, h, rfl, rfl⟩

theorem filter_or_perm {α : Type} (p q : α → Bool)
    (hdisj : ∀ a, ¬ (p a = true ∧ q a = true)) :
    ∀ l : List α,
      (l.filter (fun a => p a || q a)).Perm (l.filter p ++ l.filter q) := by
  intro l
  induction l with
  | nil => exact List.Perm.refl []
  | cons a l ih =>
      by_cases hp : p a = true
      · have hq : q a = false :=
          Bool.eq_false_iff.mpr (fun h => hdisj a ⟨hp, h⟩)
        rw [List.filter_cons, List.filter_cons, List.filter_cons]
        rw [if_pos (by rw [hp, hq]; rfl), if_pos hp, if_neg (by rw [hq]; simp)]
        exact ih.cons a
      · have hp' : p a = false := Bool.eq_false_iff.mpr hp
        by_cases hq : q a = true
        · rw [List.filter_cons, List.filter_cons, List.filter_cons]
          rw [if_pos (by rw [hp', hq]; rfl), if_neg (by rw [hp']; simp),
            if_pos hq]
          exact (ih.cons a).trans List.perm_middle.symm
        · have hq' : q a = false := Bool.eq_false_iff.mpr hq
          rw [List.filter_cons, List.filter_cons, List.filter_cons]
          rw [if_neg (by rw [hp', hq']; simp), if_neg (by rw [hp']; simp),
            if_neg (by rw [hq']; simp)]
          exact ih

theorem flatMap_filter_perm (base : List ContentRecord) :
    ∀ bs : List (List Key), bs.flatten.Nodup →
      (bs.flatMap (fun b => base.filter (batchMatch b))).Perm
        (base.filter (batchMatch bs.flatten)) := by
  intro bs
  induction bs with
  | nil =>
      intro _
      simp [batchMatch]
  | cons b bs ih =>
      intro hnd
      rw [List.flatten_cons] at hnd ⊢
      rcases List.nodup_append.mp hnd with ⟨hb, hbs, hdisj⟩
      have hpq : ∀ r : ContentRecord,
          ¬ (batchMatch b r = true ∧ batchMatch bs.flatten r = true) := by
        intro r ⟨h1, h2⟩
        exact hdisj ((batchMatch_true_iff b r).mp h1)
          ((batchMatch_true_iff bs.flatten r).mp h2)
      have hor : base.filter (batchMatch (b ++ bs.flatten)) =
          base.filter (fun r => batchMatch b r || batchMatch bs.flatten r) := by
        apply List.filter_congr
        intro r _
        simp [batchMatch, List.any_append]
      rw [List.flatMap_cons, hor]
      exact ((ih hbs).append_left (base.filter (batchMatch b))).trans
        (filter_or_perm (batchMatch b) (batchMatch bs.flatten) hpq base).symm

/-- C8: for every positive batch size and every removal key list (the
enumeration of the Python set `delta.removals`, hence duplicate-free) —
in particular for sizes 0, 1, `batch_size` and `batch_size + 1` — the
batched disjunctive lookup of `build_removals` yields the same records,
with the same multiplicities (no duplicates, no omissions), as the single
unbatched disjunctive lookup over all keys at once. -/
theorem C8_batching_refines_unbatched (batch_size : Nat)
    (base : List ContentRecord) (removalKeys : List Key)
    (hn : 0 < batch_size) (hnd : removalKeys.Nodup) :
    ((build_removals batch_size base removalKeys).items).Perm
      (unbatchedLookup base removalKeys) := by
  have hflat : (batches batch_size removalKeys).flatten = removalKeys :=
    batches_flatten batch_size hn removalKeys
  have h := flatMap_filter_perm base (batches batch_size removalKeys)
    (by rw [hflat]; exact hnd)
  rw [hflat] at h
  exact h

/-- C8 witness: batch size 2 on a removal set of size 3 (= batch_size + 1)
matches the unbatched lookup. -/
theorem C8_witness :
    ((build_removals 2 [⟨1, "a", "1"⟩, ⟨2, "b", "2"⟩, ⟨3, "x", "9"⟩]
        [⟨"a", "1"⟩, ⟨"b", "2"⟩, ⟨"c", "3"⟩]).items).Perm
      (unbatchedLookup [⟨1, "a", "1"⟩, ⟨2, "b", "2"⟩, ⟨3, "x", "9"⟩]
        [⟨"a", "1"⟩, ⟨"b", "2"⟩, ⟨"c", "3"⟩]) :=
  C8_batching_refines_unbatched 2
    [⟨1, "a", "1"⟩, ⟨2, "b", "2"⟩, ⟨3, "x", "9"⟩]
    [⟨"a", "1"⟩, ⟨"b", "2"⟩, ⟨"c", "3"⟩] (by decide) (by decide)
